import Mathlib

/-!
Shallow embedding of the `configtls` package of
windmeup/opentelemetry-collector (file `src/cmd/builder/main.go`,
second embedded document: package `configtls`).

The package turns a `TLSSetting` (file paths and policy knobs) into a
`tls.Config`, with a time-based hot-reload wrapper (`certReloader`)
for the cert/key identity and an optional client-CA reloader on the
server side.

External world (the Go standard library and the filesystem) is
abstracted as an `Env` of oracles: `tls.LoadX509KeyPair`,
`os.ReadFile`, `x509.CertPool.AppendCertsFromPEM`, `filepath.Clean`
and the fsnotify watcher start.  Time is an `Int` (Go `time.Time`
as a point, `time.Duration` as a signed offset); `t.Before(u)` is
strict `t < u` and `t.Add(d)` is `t + d`.

Disk reads are observable: the builders return, next to the result,
the list of file paths read from disk in order, and
`certReloader.GetCertificate` returns a `didRead` flag recording
whether `tls.LoadX509KeyPair` was invoked during the call.
-/

namespace Configtls

/-- An X.509 certificate/private-key pair as produced by
`tls.LoadX509KeyPair` (opaque to this package). -/
structure TLSCertificate where
  certData : String
  keyData : String
deriving DecidableEq

/-- An `x509.CertPool` (opaque to this package: a parsed set of PEM
blocks). -/
structure CertPool where
  pems : List String
deriving DecidableEq

/-- `tls.ClientAuthType`; the package only ever uses the zero value
`NoClientCert` and `RequireAndVerifyClientCert`. -/
inductive ClientAuthType where
  | NoClientCert
  | RequireAndVerifyClientCert
deriving DecidableEq

/-- The external world: Go standard-library calls made by the package,
as pure oracles.  A fixed `Env` is one snapshot of the filesystem. -/
structure Env where
  /-- `tls.LoadX509KeyPair certFile keyFile`. -/
  loadX509KeyPair : String → String → Except String TLSCertificate
  /-- `os.ReadFile path`. -/
  readFile : String → Except String String
  /-- `x509.CertPool.AppendCertsFromPEM` on a fresh pool: `none` means
  the PEM did not parse (Go returns `false`). -/
  appendCertsFromPEM : String → Option CertPool
  /-- `filepath.Clean`. -/
  cleanPath : String → String
  /-- Starting the fsnotify watcher on a path (used by the client-CA
  reloader's `startWatching`). -/
  startWatch : String → Except String Unit

/-- `tls.VersionTLS10`. -/
def VersionTLS10 : Nat := 769
/-- `tls.VersionTLS11`. -/
def VersionTLS11 : Nat := 770
/-- `tls.VersionTLS12`. -/
def VersionTLS12 : Nat := 771
/-- `tls.VersionTLS13`. -/
def VersionTLS13 : Nat := 772

/-- `const defaultMinTLSVersion = tls.VersionTLS12`. -/
def defaultMinTLSVersion : Nat := VersionTLS12

/-- `const defaultMaxTLSVersion = 0` (crypto/tls default MaxVersion:
the maximum supported version). -/
def defaultMaxTLSVersion : Nat := 0

/-- `TLSSetting`: the common client and server TLS configuration. -/
structure TLSSetting where
  CAFile : String := ""
  CertFile : String := ""
  KeyFile : String := ""
  MinVersion : String := ""
  MaxVersion : String := ""
  ReloadInterval : Int := 0
deriving DecidableEq

/-- `TLSClientSetting`: client-specific configuration embedding
`TLSSetting`. -/
structure TLSClientSetting extends TLSSetting where
  Insecure : Bool := false
  InsecureSkipVerify : Bool := false
  ServerName : String := ""
deriving DecidableEq

/-- `TLSServerSetting`: server-specific configuration embedding
`TLSSetting`. -/
structure TLSServerSetting extends TLSSetting where
  ClientCAFile : String := ""
  ReloadClientCAFile : Bool := false
deriving DecidableEq

/-- `certReloader`: wrapper holding the cached identity and the reload
schedule.  The Go field `cert` is a `*tls.Certificate`; it is modelled
as an `Option`, `none` standing for the nil pointer.  The `sync.RWMutex`
is part of the concurrency model below, not of the sequential state. -/
structure certReloader where
  CertFile : String
  KeyFile : String
  ReloadInterval : Int
  nextReload : Int
  cert : Option TLSCertificate
deriving DecidableEq

/-- `newCertReloader(certFile, keyFile, reloadInterval)`: initial
synchronous load; `nextReload = time.Now().Add(reloadInterval)`. -/
def newCertReloader (env : Env) (now : Int) (certFile keyFile : String)
    (reloadInterval : Int) : Except String certReloader :=
  match env.loadX509KeyPair certFile keyFile with
  | .error e => .error e
  | .ok cert =>
      .ok { CertFile := certFile
            KeyFile := keyFile
            ReloadInterval := reloadInterval
            nextReload := now + reloadInterval
            cert := some cert }

instance {ε α : Type} [DecidableEq ε] [DecidableEq α] :
    DecidableEq (Except ε α) := fun a b =>
  match a, b with
  | .ok x, .ok y =>
      if h : x = y then .isTrue (by rw [h]) else
        .isFalse (fun hc => h (Except.ok.inj hc))
  | .error x, .error y =>
      if h : x = y then .isTrue (by rw [h]) else
        .isFalse (fun hc => h (Except.error.inj hc))
  | .ok _, .error _ => .isFalse (fun hc => Except.noConfusion hc)
  | .error _, .ok _ => .isFalse (fun hc => Except.noConfusion hc)

/-- Result of one sequential `certReloader.GetCertificate` call: the
returned `(*tls.Certificate, error)`, the post-call reloader state, and
whether `tls.LoadX509KeyPair` was invoked during the call. -/
structure GetCertOut where
  cert : Except String (Option TLSCertificate)
  state : certReloader
  didRead : Bool
deriving DecidableEq

/-- `(r *certReloader) GetCertificate()`, sequentially: reload from
disk when `r.ReloadInterval != 0 && r.nextReload.Before(now)`,
otherwise return the cache.  On reload failure the state is returned
unchanged (the Go code returns before assigning any field). -/
def certReloader.GetCertificate (env : Env) (now : Int) (r : certReloader) :
    GetCertOut :=
  if r.ReloadInterval ≠ 0 ∧ r.nextReload < now then
    match env.loadX509KeyPair r.CertFile r.KeyFile with
    | .error e =>
        { cert := .error ("failed to load TLS cert and key: " ++ e)
          state := r
          didRead := true }
    | .ok c =>
        let r2 : certReloader :=
          { r with cert := some c, nextReload := now + r.ReloadInterval }
        { cert := .ok r2.cert, state := r2, didRead := true }
  else
    { cert := .ok r.cert, state := r, didRead := false }

/-- The state of the client-CA reloader referenced by
`TLSServerSetting.LoadTLSConfig`.  Its source file is not under
`src/`; the state is modelled from the spec (section 4.3
TrustStoreReloader): CA file path, cached trust pool, and whether the
background watch task is running. -/
structure clientCAsReloader where
  clientCAFile : String
  certPool : CertPool
  watching : Bool
deriving DecidableEq

/-- `tls.Config` as far as this package populates it.  The
`GetCertificate`/`GetClientCertificate` callbacks are closures over a
`certReloader`; they are modelled by the captured reloader (or `none`
when the callback is left nil).  `GetConfigForClient` likewise closes
over a `clientCAsReloader`. -/
structure TLSConfig where
  RootCAs : Option CertPool := none
  GetCertificate : Option certReloader := none
  GetClientCertificate : Option certReloader := none
  MinVersion : Nat := 0
  MaxVersion : Nat := 0
  ServerName : String := ""
  InsecureSkipVerify : Bool := false
  ClientCAs : Option CertPool := none
  ClientAuth : ClientAuthType := .NoClientCert
  GetConfigForClient : Option clientCAsReloader := none
deriving DecidableEq

/-- `var tlsVersions = map[string]uint16{...}`: lookup in the version
table. -/
def tlsVersions (v : String) : Option Nat :=
  if v = "1.0" then some VersionTLS10
  else if v = "1.1" then some VersionTLS11
  else if v = "1.2" then some VersionTLS12
  else if v = "1.3" then some VersionTLS13
  else none

/-- Go `%q` formatting of a string (as used in the unsupported-version
error message). -/
def goQuote (v : String) : String := "\"" ++ v ++ "\""

/-- `convertVersion(v, defaultVersion)`. -/
def convertVersion (v : String) (defaultVersion : Nat) : Except String Nat :=
  if v = "" then .ok defaultVersion
  else
    match tlsVersions v with
    | none => .error ("unsupported TLS version: " ++ goQuote v)
    | some val => .ok val

/-- `(c TLSSetting) loadCert(caPath)`: `os.ReadFile(filepath.Clean(caPath))`
followed by `AppendCertsFromPEM` on a fresh pool. -/
def TLSSetting.loadCert (env : Env) (caPath : String) :
    Except String CertPool :=
  match env.readFile (env.cleanPath caPath) with
  | .error e => .error ("failed to load CA " ++ caPath ++ ": " ++ e)
  | .ok caPEM =>
      match env.appendCertsFromPEM caPEM with
      | none => .error ("failed to parse CA " ++ caPath)
      | some certPool => .ok certPool

/-- The first block of `(c TLSSetting) loadTLSConfig()`: set up the
user-specified truststore when `len(c.CAFile) != 0`.  Next to the
outcome, the file paths read from disk. -/
def TLSSetting.caStep (env : Env) (c : TLSSetting) :
    Except String (Option CertPool) × List String :=
  if c.CAFile.length ≠ 0 then
    match TLSSetting.loadCert env c.CAFile with
    | .error e =>
        (.error ("failed to load CA CertPool: " ++ e),
         [env.cleanPath c.CAFile])
    | .ok certPool => (.ok (some certPool), [env.cleanPath c.CAFile])
  else (.ok none, [])

/-- The cert/key block of `(c TLSSetting) loadTLSConfig()`: construct
the `certReloader` when both files are set.  A pair load is recorded
as reads of both paths. -/
def TLSSetting.certStep (env : Env) (now : Int) (c : TLSSetting) :
    Except String (Option certReloader) × List String :=
  if c.CertFile ≠ "" ∧ c.KeyFile ≠ "" then
    match newCertReloader env now c.CertFile c.KeyFile c.ReloadInterval with
    | .error e =>
        (.error ("failed to load TLS cert and key: " ++ e),
         [c.CertFile, c.KeyFile])
    | .ok r => (.ok (some r), [c.CertFile, c.KeyFile])
  else (.ok none, [])

/-- `(c TLSSetting) loadTLSConfig()`: CA pool (when `ca_file` is set),
cert/key pairing check, cert reloader, version bounds, then the
assembled `tls.Config`.  Next to the result, the list of file paths
the call attempted to read from disk, in order. -/
def TLSSetting.loadTLSConfig (env : Env) (now : Int) (c : TLSSetting) :
    Except String TLSConfig × List String :=
  match TLSSetting.caStep env c with
  | (.error e, reads) => (.error e, reads)
  | (.ok certPool, reads) =>
    if (c.CertFile = "" ∧ c.KeyFile ≠ "") ∨ (c.CertFile ≠ "" ∧ c.KeyFile = "") then
      (.error "for auth via TLS, either both certificate and key must be supplied, or neither",
       reads)
    else
      match TLSSetting.certStep env now c with
      | (.error e, reads2) => (.error e, reads ++ reads2)
      | (.ok reloader, reads2) =>
        match convertVersion c.MinVersion defaultMinTLSVersion with
        | .error e => (.error ("invalid TLS min_version: " ++ e), reads ++ reads2)
        | .ok minTLS =>
          match convertVersion c.MaxVersion defaultMaxTLSVersion with
          | .error e => (.error ("invalid TLS max_version: " ++ e), reads ++ reads2)
          | .ok maxTLS =>
            (.ok { RootCAs := certPool
                   GetCertificate := reloader
                   GetClientCertificate := reloader
                   MinVersion := minTLS
                   MaxVersion := maxTLS },
             reads ++ reads2)

/-- `(c TLSClientSetting) LoadTLSConfig()`: `Except.ok none` models
the Go `return nil, nil` (no TLS). -/
def TLSClientSetting.LoadTLSConfig (env : Env) (now : Int)
    (c : TLSClientSetting) :
    Except String (Option TLSConfig) × List String :=
  if c.Insecure = true ∧ c.CAFile = "" then (.ok none, [])
  else
    match c.toTLSSetting.loadTLSConfig env now with
    | (.error e, reads) => (.error ("failed to load TLS config: " ++ e), reads)
    | (.ok tlsCfg, reads) =>
        (.ok (some { tlsCfg with
                       ServerName := c.ServerName
                       InsecureSkipVerify := c.InsecureSkipVerify }),
         reads)

/-- `(c TLSServerSetting) loadClientCAFile()`. -/
def TLSServerSetting.loadClientCAFile (env : Env) (c : TLSServerSetting) :
    Except String CertPool :=
  TLSSetting.loadCert env c.ClientCAFile

/-- Modelled from the spec: `newClientCAsReloader(clientCAFile, &c)`
(its source file is not under `src/`).  Per spec section 4.3, the
constructor loads and parses the client-CA file into a trust pool and
fails on read/parse failure; the watch task is not yet running. -/
def newClientCAsReloader (env : Env) (clientCAFile : String)
    (c : TLSServerSetting) : Except String clientCAsReloader :=
  match TLSServerSetting.loadClientCAFile env c with
  | .error e => .error e
  | .ok pool =>
      .ok { clientCAFile := clientCAFile, certPool := pool, watching := false }

/-- Modelled from the spec: `(r *clientCAsReloader) startWatching()`
(its source file is not under `src/`).  Per spec section 4.3 it starts
a background filesystem-watch task on the CA file and can fail. -/
def clientCAsReloader.startWatching (env : Env) (r : clientCAsReloader) :
    Except String clientCAsReloader :=
  match env.startWatch r.clientCAFile with
  | .error e => .error e
  | .ok _ => .ok { r with watching := true }

/-- Modelled from the spec: `(r *clientCAsReloader) getClientConfig(base)`
(its source file is not under `src/`).  Per spec section 4.3 it returns
a derived config whose client trust pool is the current cached pool. -/
def clientCAsReloader.getClientConfig (r : clientCAsReloader)
    (base : TLSConfig) : TLSConfig :=
  { base with ClientCAs := some r.certPool }

/-- `(c TLSServerSetting) LoadTLSConfig()`.  The third component
records whether a filesystem watch task was started during the call. -/
def TLSServerSetting.LoadTLSConfig (env : Env) (now : Int)
    (c : TLSServerSetting) :
    Except String TLSConfig × List String × Bool :=
  match c.toTLSSetting.loadTLSConfig env now with
  | (.error e, reads) => (.error ("failed to load TLS config: " ++ e), reads, false)
  | (.ok tlsCfg, reads) =>
    if c.ClientCAFile ≠ "" then
      match newClientCAsReloader env c.ClientCAFile c with
      | .error e => (.error e, reads ++ [env.cleanPath c.ClientCAFile], false)
      | .ok reloader =>
        if c.ReloadClientCAFile = true then
          match clientCAsReloader.startWatching env reloader with
          | .error e => (.error e, reads ++ [env.cleanPath c.ClientCAFile], false)
          | .ok reloader2 =>
              (.ok { tlsCfg with
                       GetConfigForClient := some reloader2
                       ClientCAs := some reloader2.certPool
                       ClientAuth := .RequireAndVerifyClientCert },
               reads ++ [env.cleanPath c.ClientCAFile], true)
        else
          (.ok { tlsCfg with
                   ClientCAs := some reloader.certPool
                   ClientAuth := .RequireAndVerifyClientCert },
           reads ++ [env.cleanPath c.ClientCAFile], false)
    else (.ok tlsCfg, reads, false)

/-!
Interleaving model of concurrent `certReloader.GetCertificate` calls.

Each call is a thread running the body of `GetCertificate` step by
step; the `sync.RWMutex` is modelled by its observable state, derived
from the thread phases: the read lock is held by exactly the threads
in phase `readLocked`, the write lock by the thread in phase
`writeLocked`.  `RLock` is enabled when no writer holds the lock;
`Lock` is enabled when no writer and no reader holds it.  Each thread
carries its own `Env` (the disk contents it would observe), so
distinct writers may install distinct certificates.
-/

/-- The control point of one in-flight `GetCertificate` call. -/
inductive RPhase where
  /-- Before `r.lock.RLock()`. -/
  | start
  /-- Holding the read lock, about to test whether a reload is due. -/
  | readLocked
  /-- Released the read lock (reload due), waiting on `r.lock.Lock()`. -/
  | upgrading
  /-- Holding the write lock, about to call `tls.LoadX509KeyPair`. -/
  | writeLocked
  /-- Returned with the given result. -/
  | done (res : Except String (Option TLSCertificate))

/-- Whether a phase is terminal. -/
def RPhase.isDone : RPhase → Bool
  | .done _ => true
  | _ => false

/-- One concurrent caller of `GetCertificate`. -/
structure RThread where
  env : Env
  phase : RPhase

/-- A configuration: the shared `certReloader` record, the common
clock value (`time.Now()` as observed by the calls), and the callers. -/
structure RConfig where
  rel : certReloader
  now : Int
  threads : List RThread

/-- Derived `RWMutex` state: some thread holds the read lock. -/
def readerHeld (ts : List RThread) : Bool :=
  ts.any fun t =>
    match t.phase with
    | .readLocked => true
    | _ => false

/-- Derived `RWMutex` state: some thread holds the write lock. -/
def writerHeld (ts : List RThread) : Bool :=
  ts.any fun t =>
    match t.phase with
    | .writeLocked => true
    | _ => false

/-- Replace the phase of the thread at position `i`. -/
def setPhase (ts : List RThread) (i : Nat) (t : RThread) (p : RPhase) :
    List RThread :=
  ts.set i { t with phase := p }

/-- The interleaving semantics of `GetCertificate`: one transition is
one atomic step of one caller against the shared state. -/
inductive RStep : RConfig → RConfig → Prop where
  /-- `r.lock.RLock()`: enabled while no writer holds the lock. -/
  | rlock (cfg : RConfig) (i : Nat) (t : RThread)
      (hget : cfg.threads.get? i = some t)
      (hphase : t.phase = .start)
      (hw : writerHeld cfg.threads = false) :
      RStep cfg { cfg with threads := setPhase cfg.threads i t .readLocked }
  /-- Reload not due: return the cache, `r.lock.RUnlock()` deferred. -/
  | readHit (cfg : RConfig) (i : Nat) (t : RThread)
      (hget : cfg.threads.get? i = some t)
      (hphase : t.phase = .readLocked)
      (hdue : ¬(cfg.rel.ReloadInterval ≠ 0 ∧ cfg.rel.nextReload < cfg.now)) :
      RStep cfg { cfg with
                    threads := setPhase cfg.threads i t
                      (.done (.ok cfg.rel.cert)) }
  /-- Reload due: `r.lock.RUnlock()` and contend for the write lock. -/
  | readMiss (cfg : RConfig) (i : Nat) (t : RThread)
      (hget : cfg.threads.get? i = some t)
      (hphase : t.phase = .readLocked)
      (hdue : cfg.rel.ReloadInterval ≠ 0 ∧ cfg.rel.nextReload < cfg.now) :
      RStep cfg { cfg with threads := setPhase cfg.threads i t .upgrading }
  /-- `r.lock.Lock()`: enabled while no reader and no writer holds the
  lock. -/
  | wlock (cfg : RConfig) (i : Nat) (t : RThread)
      (hget : cfg.threads.get? i = some t)
      (hphase : t.phase = .upgrading)
      (hw : writerHeld cfg.threads = false)
      (hr : readerHeld cfg.threads = false) :
      RStep cfg { cfg with threads := setPhase cfg.threads i t .writeLocked }
  /-- `tls.LoadX509KeyPair` fails: return the error, shared state
  untouched, `r.lock.Unlock()` deferred. -/
  | wfail (cfg : RConfig) (i : Nat) (t : RThread) (e : String)
      (hget : cfg.threads.get? i = some t)
      (hphase : t.phase = .writeLocked)
      (hload : t.env.loadX509KeyPair cfg.rel.CertFile cfg.rel.KeyFile =
        .error e) :
      RStep cfg { cfg with
                    threads := setPhase cfg.threads i t
                      (.done (.error ("failed to load TLS cert and key: " ++ e))) }
  /-- `tls.LoadX509KeyPair` succeeds: replace the cache and the
  next-reload timestamp under the write lock, return the new value. -/
  | wok (cfg : RConfig) (i : Nat) (t : RThread) (c : TLSCertificate)
      (hget : cfg.threads.get? i = some t)
      (hphase : t.phase = .writeLocked)
      (hload : t.env.loadX509KeyPair cfg.rel.CertFile cfg.rel.KeyFile = .ok c) :
      RStep cfg { cfg with
                    rel := { cfg.rel with
                               cert := some c
                               nextReload := cfg.now + cfg.rel.ReloadInterval }
                    threads := setPhase cfg.threads i t (.done (.ok (some c))) }

/-!  Concrete fixtures used by witnesses and counterexamples. -/

/-- A filesystem snapshot: `cert.pem`/`key.pem` parse to `CERT1/KEY1`,
`ca.pem` holds a PEM that parses; everything else is missing. -/
def testEnv : Env where
  loadX509KeyPair := fun cf kf =>
    if cf = "cert.pem" ∧ kf = "key.pem" then
      .ok { certData := "CERT1", keyData := "KEY1" }
    else .error "open: no such file or directory"
  readFile := fun p =>
    if p = "ca.pem" then .ok "CAPEM"
    else .error "open: no such file or directory"
  appendCertsFromPEM := fun s =>
    if s = "CAPEM" then some { pems := ["CAPEM"] } else none
  cleanPath := fun p => p
  startWatch := fun _ => .ok ()

/-- A filesystem snapshot on which every cert/key load fails
(e.g. the files were deleted). -/
def failEnv : Env where
  loadX509KeyPair := fun _ _ => .error "permission denied"
  readFile := fun _ => .error "permission denied"
  appendCertsFromPEM := fun _ => none
  cleanPath := fun p => p
  startWatch := fun _ => .error "permission denied"

/-- The identity cached before any reload in the fixtures. -/
def cert0 : TLSCertificate := { certData := "CERT0", keyData := "KEY0" }

/-- A reloader with a non-zero interval whose next reload is scheduled
at time 5. -/
def rBoundary : certReloader :=
  { CertFile := "cert.pem", KeyFile := "key.pem", ReloadInterval := 1,
    nextReload := 5, cert := some cert0 }

/-- A reloader with a zero reload interval. -/
def rZero : certReloader :=
  { CertFile := "cert.pem", KeyFile := "key.pem", ReloadInterval := 0,
    nextReload := 5, cert := some cert0 }

/-- The reloader `newCertReloader testEnv 0 "cert.pem" "key.pem" 10`
builds. -/
def rInit : certReloader :=
  { CertFile := "cert.pem", KeyFile := "key.pem", ReloadInterval := 10,
    nextReload := 10,
    cert := some { certData := "CERT1", keyData := "KEY1" } }

/-- A server setting with a client-CA file and the reload flag left
false. -/
def srvCA : TLSServerSetting := { ClientCAFile := "ca.pem" }

/-- The config `TLSServerSetting.LoadTLSConfig testEnv 0 srvCA`
produces. -/
def srvCACfg : TLSConfig :=
  { MinVersion := 771, ClientCAs := some { pems := ["CAPEM"] },
    ClientAuth := .RequireAndVerifyClientCert }

/-- The cert/key pairing invariant is violated: exactly one of
`cert_file`/`key_file` is set. -/
def exactlyOneOfCertKey (c : TLSSetting) : Prop :=
  (c.CertFile = "" ∧ c.KeyFile ≠ "") ∨ (c.CertFile ≠ "" ∧ c.KeyFile = "")

/-- The error returned by the cert/key pairing check. -/
def pairingErrMsg : String :=
  "for auth via TLS, either both certificate and key must be supplied, or neither"

/-!  Theorems. -/

/-- Inversion for a successful `loadTLSConfig`: the produced config is
exactly the record built at the end of the function, with both version
conversions succeeding. -/
theorem loadTLSConfig_ok_inv (env : Env) (now : Int) (c : TLSSetting)
    (cfg : TLSConfig) (reads : List String)
    (h : TLSSetting.loadTLSConfig env now c = (.ok cfg, reads)) :
    ∃ minTLS maxTLS rl cp,
      convertVersion c.MinVersion defaultMinTLSVersion = .ok minTLS ∧
      convertVersion c.MaxVersion defaultMaxTLSVersion = .ok maxTLS ∧
      cfg = { RootCAs := cp
              GetCertificate := rl
              GetClientCertificate := rl
              MinVersion := minTLS
              MaxVersion := maxTLS } := by
  unfold TLSSetting.loadTLSConfig at h
  split at h
  · exact absurd (congrArg Prod.fst h) (by simp)
  · split at h
    · exact absurd (congrArg Prod.fst h) (by simp)
    · split at h
      · exact absurd (congrArg Prod.fst h) (by simp)
      · split at h
        · exact absurd (congrArg Prod.fst h) (by simp)
        · split at h
          · exact absurd (congrArg Prod.fst h) (by simp)
          · have h1 := congrArg Prod.fst h
            simp only at h1
            refine ⟨_, _, _, _, ?_, ?_, (Except.ok.inj h1).symm⟩ <;> assumption

/-- C1 (counterexample): at the boundary instant, when the current
time equals the stored next-reload timestamp and the reload interval
is non-zero, `GetCertificate` does NOT re-read the files (the code
tests `r.nextReload.Before(now)`, which is strict), refuting the
claimed "at or past" iff at the concrete state `rBoundary`, time 5. -/
theorem getCertificate_reread_at_boundary_counterexample :
    ¬(((certReloader.GetCertificate testEnv 5 rBoundary).didRead = true) ↔
        (rBoundary.ReloadInterval ≠ 0 ∧ rBoundary.nextReload ≤ (5 : Int))) := by
  decide

/-- C1 (amended): `GetCertificate` re-reads the cert/key files from
disk if and only if the reload interval is non-zero AND the current
time is strictly past the stored next-reload timestamp; with a zero
reload interval it never re-reads and always returns the cached
identity, leaving the state unchanged. -/
theorem getCertificate_reread_iff (env : Env) (now : Int) (r : certReloader) :
    ((certReloader.GetCertificate env now r).didRead = true ↔
      (r.ReloadInterval ≠ 0 ∧ r.nextReload < now)) ∧
    (r.ReloadInterval = 0 →
      certReloader.GetCertificate env now r =
        { cert := .ok r.cert, state := r, didRead := false }) := by
  unfold certReloader.GetCertificate
  by_cases h : r.ReloadInterval ≠ 0 ∧ r.nextReload < now
  · rw [if_pos h]
    refine ⟨?_, fun h0 => absurd h0 h.1⟩
    cases hl : env.loadX509KeyPair r.CertFile r.KeyFile <;> simp [hl, h]
  · rw [if_neg h]
    exact ⟨by simp [h], fun _ => rfl⟩

/-- Witness for `getCertificate_reread_iff` at `testEnv`, time 9,
state `rZero` (zero reload interval). -/
theorem getCertificate_reread_iff_witness :
    ((certReloader.GetCertificate testEnv 9 rZero).didRead = true ↔
      (rZero.ReloadInterval ≠ 0 ∧ rZero.nextReload < (9 : Int))) ∧
    certReloader.GetCertificate testEnv 9 rZero =
      { cert := .ok rZero.cert, state := rZero, didRead := false } := by
  have h := getCertificate_reread_iff testEnv 9 rZero
  exact ⟨h.1, h.2 rfl⟩

/-- C2: when a due reload's re-load from disk fails, `GetCertificate`
returns an error and the previously cached identity remains unchanged
(the whole state is returned as it was; in particular the cache is
still the non-null value installed at construction). -/
theorem getCertificate_reload_failure_keeps_cache (env : Env) (now : Int)
    (r : certReloader) (c : TLSCertificate) (e : String)
    (hcache : r.cert = some c)
    (hdue : r.ReloadInterval ≠ 0 ∧ r.nextReload < now)
    (hfail : env.loadX509KeyPair r.CertFile r.KeyFile = .error e) :
    (certReloader.GetCertificate env now r).cert =
      .error ("failed to load TLS cert and key: " ++ e) ∧
    (certReloader.GetCertificate env now r).state = r ∧
    (certReloader.GetCertificate env now r).state.cert = some c := by
  unfold certReloader.GetCertificate
  rw [if_pos hdue, hfail]
  exact ⟨rfl, rfl, hcache⟩

/-- Witness for `getCertificate_reload_failure_keeps_cache` at
`failEnv`, time 10, state `rBoundary`. -/
theorem getCertificate_reload_failure_keeps_cache_witness :
    (certReloader.GetCertificate failEnv 10 rBoundary).cert =
      .error ("failed to load TLS cert and key: " ++ "permission denied") ∧
    (certReloader.GetCertificate failEnv 10 rBoundary).state = rBoundary ∧
    (certReloader.GetCertificate failEnv 10 rBoundary).state.cert = some cert0 :=
  getCertificate_reload_failure_keeps_cache failEnv 10 rBoundary cert0
    "permission denied" rfl (by decide) rfl

/-- C9: on the error path of a due reload no field of the reloader
changes (in particular the next-reload timestamp is unchanged), so
every subsequent call at a later or equal time with the files still
unloadable re-attempts the disk load and returns an error, again
leaving the state unchanged. -/
theorem getCertificate_error_path_frame (env : Env) (now : Int)
    (r : certReloader) (e : String)
    (hdue : r.ReloadInterval ≠ 0 ∧ r.nextReload < now)
    (hfail : env.loadX509KeyPair r.CertFile r.KeyFile = .error e) :
    (certReloader.GetCertificate env now r).state = r ∧
    (∀ (env2 : Env) (now2 : Int) (e2 : String), now ≤ now2 →
      env2.loadX509KeyPair r.CertFile r.KeyFile = .error e2 →
      (certReloader.GetCertificate env2 now2 r).didRead = true ∧
      (certReloader.GetCertificate env2 now2 r).cert =
        .error ("failed to load TLS cert and key: " ++ e2) ∧
      (certReloader.GetCertificate env2 now2 r).state = r) := by
  have hstate : ∀ (env2 : Env) (now2 : Int) (e2 : String),
      (r.ReloadInterval ≠ 0 ∧ r.nextReload < now2) →
      env2.loadX509KeyPair r.CertFile r.KeyFile = .error e2 →
      (certReloader.GetCertificate env2 now2 r).didRead = true ∧
      (certReloader.GetCertificate env2 now2 r).cert =
        .error ("failed to load TLS cert and key: " ++ e2) ∧
      (certReloader.GetCertificate env2 now2 r).state = r := by
    intro env2 now2 e2 hdue2 hfail2
    unfold certReloader.GetCertificate
    rw [if_pos hdue2, hfail2]
    exact ⟨rfl, rfl, rfl⟩
  refine ⟨(hstate env now e hdue hfail).2.2, ?_⟩
  intro env2 now2 e2 hle hfail2
  exact hstate env2 now2 e2 ⟨hdue.1, lt_of_lt_of_le hdue.2 hle⟩ hfail2

/-- Witness for `getCertificate_error_path_frame` at `failEnv`, times
10 and 11, state `rBoundary`. -/
theorem getCertificate_error_path_frame_witness :
    (certReloader.GetCertificate failEnv 10 rBoundary).state = rBoundary ∧
    (certReloader.GetCertificate failEnv 11 rBoundary).didRead = true ∧
    (certReloader.GetCertificate failEnv 11 rBoundary).cert =
      .error ("failed to load TLS cert and key: " ++ "permission denied") := by
  have h := getCertificate_error_path_frame failEnv 10 rBoundary
    "permission denied" (by decide) rfl
  have h2 := h.2 failEnv 11 "permission denied" (by decide) rfl
  exact ⟨h.1, h2.1, h2.2.1⟩

/-- C7: for every cert/key pair for which `newCertReloader` succeeds,
a `GetCertificate` call made before the next-reload timestamp is
reached returns exactly the certificate loaded at construction time —
on any filesystem state, without touching the disk. -/
theorem newCertReloader_initial_identity (env env2 : Env) (now0 now : Int)
    (cf kf : String) (iv : Int) (r : certReloader)
    (hctor : newCertReloader env now0 cf kf iv = .ok r)
    (hbefore : now < r.nextReload) :
    ∃ c, env.loadX509KeyPair cf kf = .ok c ∧ r.cert = some c ∧
      (certReloader.GetCertificate env2 now r).cert = .ok (some c) ∧
      (certReloader.GetCertificate env2 now r).didRead = false := by
  unfold newCertReloader at hctor
  cases hl : env.loadX509KeyPair cf kf with
  | error e => rw [hl] at hctor; cases hctor
  | ok c =>
      rw [hl] at hctor
      have hr : ({ CertFile := cf, KeyFile := kf, ReloadInterval := iv,
                   nextReload := now0 + iv,
                   cert := some c } : certReloader) = r := Except.ok.inj hctor
      have hnotdue : ¬(r.ReloadInterval ≠ 0 ∧ r.nextReload < now) :=
        fun hc => absurd hbefore (not_lt.mpr (le_of_lt hc.2))
      have hget : certReloader.GetCertificate env2 now r =
          { cert := .ok r.cert, state := r, didRead := false } := by
        unfold certReloader.GetCertificate
        rw [if_neg hnotdue]
      refine ⟨c, hl ▸ rfl, ?_, ?_, ?_⟩
      · rw [← hr]
      · rw [hget, ← hr]
      · rw [hget]

/-- Witness for `newCertReloader_initial_identity`: construction on
`testEnv` at time 0 with interval 10, queried at time 5 on `failEnv`
(the files meanwhile unreadable). -/
theorem newCertReloader_initial_identity_witness :
    ∃ c, testEnv.loadX509KeyPair "cert.pem" "key.pem" = .ok c ∧
      rInit.cert = some c ∧
      (certReloader.GetCertificate failEnv 5 rInit).cert = .ok (some c) ∧
      (certReloader.GetCertificate failEnv 5 rInit).didRead = false :=
  newCertReloader_initial_identity testEnv failEnv 0 5 "cert.pem" "key.pem"
    10 rInit (by decide) (by decide)

/-- C6: `convertVersion` maps the empty string to the caller-supplied
default (so the builders give empty `min_version` the TLS 1.2 constant
and empty `max_version` the platform maximum, encoded 0), maps each of
"1.0".."1.3" to its protocol constant, and fails with the
unsupported-version error on any other string; being a Lean function
it has no side effects, and the builders' configs carry exactly its
results. -/
theorem convertVersion_spec :
    (∀ d : Nat, convertVersion "" d = .ok d) ∧
    (∀ d : Nat, convertVersion "1.0" d = .ok VersionTLS10) ∧
    (∀ d : Nat, convertVersion "1.1" d = .ok VersionTLS11) ∧
    (∀ d : Nat, convertVersion "1.2" d = .ok VersionTLS12) ∧
    (∀ d : Nat, convertVersion "1.3" d = .ok VersionTLS13) ∧
    (∀ (v : String) (d : Nat), v ≠ "" → v ≠ "1.0" → v ≠ "1.1" →
      v ≠ "1.2" → v ≠ "1.3" →
      convertVersion v d = .error ("unsupported TLS version: " ++ goQuote v)) ∧
    (∀ (env : Env) (now : Int) (c : TLSSetting) (cfg : TLSConfig)
      (reads : List String),
      TLSSetting.loadTLSConfig env now c = (.ok cfg, reads) →
      (c.MinVersion = "" → cfg.MinVersion = defaultMinTLSVersion) ∧
      (c.MaxVersion = "" → cfg.MaxVersion = defaultMaxTLSVersion)) := by
  refine ⟨fun d => rfl, fun d => rfl, fun d => rfl, fun d => rfl, fun d => rfl,
    ?_, ?_⟩
  · intro v d h0 h1 h2 h3 h4
    unfold convertVersion tlsVersions
    rw [if_neg h0, if_neg h1, if_neg h2, if_neg h3, if_neg h4]
  · intro env now c cfg reads h
    obtain ⟨minTLS, maxTLS, rl, cp, hmin, hmax, hcfg⟩ :=
      loadTLSConfig_ok_inv env now c cfg reads h
    constructor
    · intro hempty
      rw [hempty] at hmin
      have : minTLS = defaultMinTLSVersion := (Except.ok.inj hmin).symm
      rw [hcfg, this]
    · intro hempty
      rw [hempty] at hmax
      have : maxTLS = defaultMaxTLSVersion := (Except.ok.inj hmax).symm
      rw [hcfg, this]

/-- Witness for `convertVersion_spec`: instantiates the
unsupported-version clause at "1.4" and the builder clause at a
concrete successful load with empty version strings. -/
theorem convertVersion_spec_witness :
    convertVersion "1.4" 0 =
      .error ("unsupported TLS version: " ++ goQuote "1.4") ∧
    ((({} : TLSSetting).MinVersion = "" →
        ((TLSSetting.loadTLSConfig testEnv 0 {}).1.toOption.getD {}).MinVersion =
          defaultMinTLSVersion) ∧
      (({} : TLSSetting).MaxVersion = "" →
        ((TLSSetting.loadTLSConfig testEnv 0 {}).1.toOption.getD {}).MaxVersion =
          defaultMaxTLSVersion)) := by
  constructor
  · exact convertVersion_spec.2.2.2.2.2.1 "1.4" 0
      (by decide) (by decide) (by decide) (by decide) (by decide)
  · have h := convertVersion_spec.2.2.2.2.2.2 testEnv 0 {}
      (((TLSSetting.loadTLSConfig testEnv 0 {}).1.toOption.getD {})) []
      (by decide)
    exact h

/-- C4: the client builder returns the no-TLS `nil` config (with nil
error) exactly when the insecure flag is set and the CA file is empty;
any other successful outcome is a fully assembled config carrying the
client fields and both version bounds resolved. -/
theorem clientLoadTLSConfig_insecure_nil (env : Env) (now : Int)
    (c : TLSClientSetting) :
    ((TLSClientSetting.LoadTLSConfig env now c).1 = .ok none ↔
      (c.Insecure = true ∧ c.CAFile = "")) ∧
    (∀ cfg : TLSConfig,
      (TLSClientSetting.LoadTLSConfig env now c).1 = .ok (some cfg) →
      cfg.ServerName = c.ServerName ∧
      cfg.InsecureSkipVerify = c.InsecureSkipVerify ∧
      ∃ minTLS maxTLS,
        convertVersion c.MinVersion defaultMinTLSVersion = .ok minTLS ∧
        convertVersion c.MaxVersion defaultMaxTLSVersion = .ok maxTLS ∧
        cfg.MinVersion = minTLS ∧ cfg.MaxVersion = maxTLS) := by
  unfold TLSClientSetting.LoadTLSConfig
  by_cases hins : c.Insecure = true ∧ c.CAFile = ""
  · rw [if_pos hins]
    refine ⟨by simp [hins], ?_⟩
    intro cfg hcfg
    exact absurd (Except.ok.inj hcfg) (by simp)
  · rw [if_neg hins]
    cases hload : TLSSetting.loadTLSConfig env now c.toTLSSetting with
    | mk res reads =>
      cases res with
      | error e => exact ⟨by simp [hins], by intro cfg hcfg; cases hcfg⟩
      | ok base =>
          refine ⟨by simp [hins], ?_⟩
          intro cfg hcfg
          have hbase := Except.ok.inj hcfg
          obtain ⟨minTLS, maxTLS, rl, cp, hmin, hmax, hb⟩ :=
            loadTLSConfig_ok_inv env now c.toTLSSetting base reads hload
          have hc2 : cfg = _ := (Option.some.inj hbase).symm
          subst hc2
          refine ⟨rfl, rfl, minTLS, maxTLS, hmin, hmax, ?_, ?_⟩ <;>
            rw [hb]

/-- Witness for `clientLoadTLSConfig_insecure_nil`: a fully built
client config at `testEnv`. -/
theorem clientLoadTLSConfig_insecure_nil_witness :
    ((TLSClientSetting.LoadTLSConfig testEnv 0
        { CAFile := "ca.pem", ServerName := "srv",
          InsecureSkipVerify := true }).1 = .ok none ↔
      (({ CAFile := "ca.pem", ServerName := "srv",
          InsecureSkipVerify := true } : TLSClientSetting).Insecure = true ∧
        ({ CAFile := "ca.pem", ServerName := "srv",
           InsecureSkipVerify := true } : TLSClientSetting).CAFile = "")) ∧
    (let cDef : TLSClientSetting :=
      { CAFile := "ca.pem", ServerName := "srv", InsecureSkipVerify := true }
     let cfg := (((TLSClientSetting.LoadTLSConfig testEnv 0 cDef).1.toOption.getD
        none).getD {})
     cfg.ServerName = cDef.ServerName ∧
     cfg.InsecureSkipVerify = cDef.InsecureSkipVerify ∧
     ∃ minTLS maxTLS,
       convertVersion cDef.MinVersion defaultMinTLSVersion = .ok minTLS ∧
       convertVersion cDef.MaxVersion defaultMaxTLSVersion = .ok maxTLS ∧
       cfg.MinVersion = minTLS ∧ cfg.MaxVersion = maxTLS) := by
  have h := clientLoadTLSConfig_insecure_nil testEnv 0
    { CAFile := "ca.pem", ServerName := "srv", InsecureSkipVerify := true }
  exact ⟨h.1, h.2 _ (by decide)⟩

theorem string_length_eq_zero_iff (s : String) : s.length = 0 ↔ s = "" := by
  constructor
  · intro h
    cases s with
    | mk data =>
        simp [String.length] at h
        simp [h]
  · intro h
    simp [h]

instance (c : TLSSetting) : Decidable (exactlyOneOfCertKey c) := by
  unfold exactlyOneOfCertKey
  infer_instance

/-- Under a violated cert/key pairing invariant, `loadTLSConfig` is
the CA step followed by the pairing error. -/
theorem loadTLSConfig_under_violation (env : Env) (now : Int)
    (c : TLSSetting) (h : exactlyOneOfCertKey c) :
    (∀ e reads, TLSSetting.caStep env c = (.error e, reads) →
      TLSSetting.loadTLSConfig env now c = (.error e, reads)) ∧
    (∀ cp reads, TLSSetting.caStep env c = (.ok cp, reads) →
      TLSSetting.loadTLSConfig env now c = (.error pairingErrMsg, reads)) := by
  have h2 : (c.CertFile = "" ∧ c.KeyFile ≠ "") ∨
      (c.CertFile ≠ "" ∧ c.KeyFile = "") := h
  constructor
  · intro e reads hca
    unfold TLSSetting.loadTLSConfig
    rw [hca]
  · intro cp reads hca
    unfold TLSSetting.loadTLSConfig
    rw [hca]
    exact if_pos h2

theorem caStep_of_empty (env : Env) (c : TLSSetting) (h : c.CAFile = "") :
    TLSSetting.caStep env c = (.ok none, []) := by
  unfold TLSSetting.caStep
  rw [if_neg]
  simp [h]

theorem caStep_snd_of_nonempty (env : Env) (c : TLSSetting)
    (h : c.CAFile ≠ "") :
    (TLSSetting.caStep env c).2 = [env.cleanPath c.CAFile] := by
  unfold TLSSetting.caStep
  rw [if_pos (fun h0 => h ((string_length_eq_zero_iff c.CAFile).mp h0))]
  cases TLSSetting.loadCert env c.CAFile <;> rfl

theorem caStep_fst_ok_of_loadCert_ok (env : Env) (c : TLSSetting)
    (pool : CertPool) (h : TLSSetting.loadCert env c.CAFile = .ok pool) :
    ∃ cp reads, TLSSetting.caStep env c = (.ok cp, reads) := by
  unfold TLSSetting.caStep
  by_cases hca : c.CAFile.length ≠ 0
  · rw [if_pos hca, h]
    exact ⟨some pool, [env.cleanPath c.CAFile], rfl⟩
  · rw [if_neg hca]
    exact ⟨none, [], rfl⟩

/-- C3 (counterexample): with exactly one of `cert_file`/`key_file`
set, (a) the client builder does NOT fail when the insecure
short-circuit applies (it returns the nil no-TLS config), (b) with a
readable `ca_file` the CA file IS read from disk before the pairing
check fails, and (c) with an unreadable `ca_file` the error is the CA
load error, not the incomplete-credential error. -/
theorem tls_pairing_counterexample :
    (TLSClientSetting.LoadTLSConfig testEnv 0
       { CertFile := "cert.pem", Insecure := true }).1 = .ok none ∧
    (TLSSetting.loadTLSConfig testEnv 0
       { CAFile := "ca.pem", CertFile := "cert.pem" }).1 =
      .error pairingErrMsg ∧
    (TLSSetting.loadTLSConfig testEnv 0
       { CAFile := "ca.pem", CertFile := "cert.pem" }).2 = ["ca.pem"] ∧
    (TLSSetting.loadTLSConfig testEnv 0
       { CAFile := "bad.pem", CertFile := "cert.pem" }).1 =
      .error "failed to load CA CertPool: failed to load CA bad.pem: open: no such file or directory" := by
  refine ⟨by decide, by decide, by decide, by decide⟩

/-- C3 (amended): with exactly one of `cert_file`/`key_file` set, the
base builder fails — with the incomplete-credential error when the
(optional) CA load did not fail first — and never reads the cert/key
files: when `ca_file` is empty nothing at all is read from disk;
when `ca_file` is set exactly the CA file is read, before the pairing
check.  The server builder always fails; the client builder fails
unless the insecure/no-CA short-circuit applies. -/
theorem tls_pairing_invariant (env : Env) (now : Int) :
    (∀ c : TLSSetting, exactlyOneOfCertKey c →
      (∃ e, (TLSSetting.loadTLSConfig env now c).1 = .error e) ∧
      (c.CAFile = "" →
        TLSSetting.loadTLSConfig env now c = (.error pairingErrMsg, [])) ∧
      (c.CAFile ≠ "" →
        (TLSSetting.loadTLSConfig env now c).2 = [env.cleanPath c.CAFile]) ∧
      (∀ pool, TLSSetting.loadCert env c.CAFile = .ok pool →
        (TLSSetting.loadTLSConfig env now c).1 = .error pairingErrMsg)) ∧
    (∀ sc : TLSServerSetting, exactlyOneOfCertKey sc.toTLSSetting →
      ∃ e, (TLSServerSetting.LoadTLSConfig env now sc).1 = .error e) ∧
    (∀ cc : TLSClientSetting, exactlyOneOfCertKey cc.toTLSSetting →
      ¬(cc.Insecure = true ∧ cc.CAFile = "") →
      ∃ e, (TLSClientSetting.LoadTLSConfig env now cc).1 = .error e) := by
  have base : ∀ c : TLSSetting, exactlyOneOfCertKey c →
      ∃ e, (TLSSetting.loadTLSConfig env now c).1 = .error e := by
    intro c h
    have hv := loadTLSConfig_under_violation env now c h
    cases hca : TLSSetting.caStep env c with
    | mk res reads =>
      cases res with
      | error e => exact ⟨e, by rw [hv.1 e reads hca]⟩
      | ok cp => exact ⟨pairingErrMsg, by rw [hv.2 cp reads hca]⟩
  refine ⟨?_, ?_, ?_⟩
  · intro c h
    have hv := loadTLSConfig_under_violation env now c h
    refine ⟨base c h, ?_, ?_, ?_⟩
    · intro hempty
      exact hv.2 none [] (caStep_of_empty env c hempty)
    · intro hne
      have hsnd := caStep_snd_of_nonempty env c hne
      cases hca : TLSSetting.caStep env c with
      | mk res reads =>
        rw [hca] at hsnd
        cases res with
        | error e => rw [hv.1 e reads hca]; exact hsnd
        | ok cp => rw [hv.2 cp reads hca]; exact hsnd
    · intro pool hpool
      obtain ⟨cp, reads, hca⟩ := caStep_fst_ok_of_loadCert_ok env c pool hpool
      rw [hv.2 cp reads hca]
  · intro sc h
    obtain ⟨e, he⟩ := base sc.toTLSSetting h
    unfold TLSServerSetting.LoadTLSConfig
    cases hload : TLSSetting.loadTLSConfig env now sc.toTLSSetting with
    | mk res reads =>
      rw [hload] at he
      cases res with
      | error e2 => exact ⟨"failed to load TLS config: " ++ e2, rfl⟩
      | ok cfg => cases he
  · intro cc h hins
    obtain ⟨e, he⟩ := base cc.toTLSSetting h
    unfold TLSClientSetting.LoadTLSConfig
    rw [if_neg hins]
    cases hload : TLSSetting.loadTLSConfig env now cc.toTLSSetting with
    | mk res reads =>
      rw [hload] at he
      cases res with
      | error e2 => exact ⟨"failed to load TLS config: " ++ e2, rfl⟩
      | ok cfg => cases he

/-- Witness for `tls_pairing_invariant`: a setting with only
`key_file` set and no CA file, a server and a non-insecure client
around it. -/
theorem tls_pairing_invariant_witness :
    TLSSetting.loadTLSConfig testEnv 0 { KeyFile := "key.pem" } =
      (.error pairingErrMsg, []) ∧
    (∃ e, (TLSServerSetting.LoadTLSConfig testEnv 0
      { KeyFile := "key.pem" }).1 = .error e) ∧
    (∃ e, (TLSClientSetting.LoadTLSConfig testEnv 0
      { KeyFile := "key.pem" }).1 = .error e) := by
  have h := tls_pairing_invariant testEnv 0
  refine ⟨(h.1 { KeyFile := "key.pem" } (by decide)).2.1 rfl,
    h.2.1 { KeyFile := "key.pem" } (by decide),
    h.2.2 { KeyFile := "key.pem" } (by decide) (by decide)⟩

theorem newClientCAsReloader_ok_inv (env : Env) (f : String)
    (c : TLSServerSetting) (r : clientCAsReloader)
    (h : newClientCAsReloader env f c = .ok r) :
    TLSServerSetting.loadClientCAFile env c = .ok r.certPool ∧
    r.clientCAFile = f ∧ r.watching = false := by
  unfold newClientCAsReloader at h
  cases hl : TLSServerSetting.loadClientCAFile env c with
  | error e => rw [hl] at h; cases h
  | ok pool =>
      rw [hl] at h
      have hr := Except.ok.inj h
      rw [← hr]
      exact ⟨rfl, rfl, rfl⟩

theorem startWatching_ok_inv (env : Env) (r r2 : clientCAsReloader)
    (h : clientCAsReloader.startWatching env r = .ok r2) :
    r2.certPool = r.certPool ∧ r2.clientCAFile = r.clientCAFile ∧
    r2.watching = true := by
  unfold clientCAsReloader.startWatching at h
  cases hw : env.startWatch r.clientCAFile with
  | error e => rw [hw] at h; cases h
  | ok u =>
      rw [hw] at h
      have hr := Except.ok.inj h
      rw [← hr]
      exact ⟨rfl, rfl, rfl⟩

/-- Inversion for a successful server `LoadTLSConfig`: the base config
is built first; with an empty `client_ca_file` it is returned as is,
otherwise the client-CA reloader is constructed and the client-auth
fields are set on top of the base config. -/
theorem serverLoadTLSConfig_ok_inv (env : Env) (now : Int)
    (c : TLSServerSetting) (cfg : TLSConfig) (reads : List String) (w : Bool)
    (h : TLSServerSetting.LoadTLSConfig env now c = (.ok cfg, reads, w)) :
    ∃ base reads0,
      TLSSetting.loadTLSConfig env now c.toTLSSetting = (.ok base, reads0) ∧
      ((c.ClientCAFile = "" ∧ cfg = base ∧ w = false) ∨
       (c.ClientCAFile ≠ "" ∧
        ∃ rl, newClientCAsReloader env c.ClientCAFile c = .ok rl ∧
          cfg.ClientCAs = some rl.certPool ∧
          cfg.ClientAuth = ClientAuthType.RequireAndVerifyClientCert ∧
          cfg.RootCAs = base.RootCAs ∧
          cfg.GetCertificate = base.GetCertificate ∧
          cfg.GetClientCertificate = base.GetClientCertificate ∧
          cfg.MinVersion = base.MinVersion ∧
          cfg.MaxVersion = base.MaxVersion ∧
          (c.ReloadClientCAFile = false →
            cfg.GetConfigForClient = base.GetConfigForClient ∧ w = false) ∧
          (c.ReloadClientCAFile = true → w = true))) := by
  unfold TLSServerSetting.LoadTLSConfig at h
  split at h
  · simp at h
  · rename_i base reads0 hbase
    refine ⟨base, reads0, hbase, ?_⟩
    split at h
    · rename_i hca
      refine Or.inr ⟨hca, ?_⟩
      split at h
      · simp at h
      · rename_i rl hrl
        refine ⟨rl, hrl, ?_⟩
        split at h
        · rename_i hflag
          split at h
          · simp at h
          · rename_i rl2 hwatch
            simp only [Prod.mk.injEq, Except.ok.injEq] at h
            obtain ⟨hcfg, hreads, hw⟩ := h
            obtain ⟨hpool, hfile, hwatching⟩ :=
              startWatching_ok_inv env rl rl2 hwatch
            subst hcfg
            refine ⟨by rw [hpool], rfl, rfl, rfl, rfl, rfl, rfl, ?_, ?_⟩
            · intro hf; rw [hf] at hflag; cases hflag
            · intro _; exact hw.symm
        · rename_i hflag
          simp only [Prod.mk.injEq, Except.ok.injEq] at h
          obtain ⟨hcfg, hreads, hw⟩ := h
          subst hcfg
          refine ⟨rfl, rfl, rfl, rfl, rfl, rfl, rfl, ?_, ?_⟩
          · intro _; exact ⟨rfl, hw.symm⟩
          · intro hf; rw [hf] at hflag; exact absurd rfl hflag
    · rename_i hca
      simp only [Prod.mk.injEq, Except.ok.injEq] at h
      obtain ⟨hcfg, hreads, hw⟩ := h
      exact Or.inl ⟨not_not.mp hca, hcfg.symm, hw.symm⟩

/-- C5: when `client_ca_file` is set and the server build succeeds,
the returned config requires and verifies client certificates with the
loaded client-CA pool installed; when `client_ca_file` is empty, the
returned config imposes no client-certificate requirement. -/
theorem serverLoadTLSConfig_client_auth (env : Env) (now : Int)
    (c : TLSServerSetting) :
    (c.ClientCAFile ≠ "" →
      ∀ cfg reads w,
        TLSServerSetting.LoadTLSConfig env now c = (.ok cfg, reads, w) →
        ∃ pool, TLSServerSetting.loadClientCAFile env c = .ok pool ∧
          cfg.ClientAuth = ClientAuthType.RequireAndVerifyClientCert ∧
          cfg.ClientCAs = some pool) ∧
    (c.ClientCAFile = "" →
      ∀ cfg reads w,
        TLSServerSetting.LoadTLSConfig env now c = (.ok cfg, reads, w) →
        cfg.ClientAuth = ClientAuthType.NoClientCert ∧ cfg.ClientCAs = none ∧
        cfg.GetConfigForClient = none) := by
  constructor
  · intro hca cfg reads w h
    obtain ⟨base, reads0, hbase, hcase⟩ :=
      serverLoadTLSConfig_ok_inv env now c cfg reads w h
    cases hcase with
    | inl hc => exact absurd hc.1 hca
    | inr hc =>
        obtain ⟨rl, hrl, hpool, hauth, _⟩ := hc.2
        obtain ⟨hload, _, _⟩ :=
          newClientCAsReloader_ok_inv env c.ClientCAFile c rl hrl
        exact ⟨rl.certPool, hload, hauth, hpool⟩
  · intro hca cfg reads w h
    obtain ⟨base, reads0, hbase, hcase⟩ :=
      serverLoadTLSConfig_ok_inv env now c cfg reads w h
    cases hcase with
    | inr hc => exact absurd hca hc.1
    | inl hc =>
        obtain ⟨minT, maxT, rl0, cp0, _, _, hb⟩ :=
          loadTLSConfig_ok_inv env now c.toTLSSetting base reads0 hbase
        rw [hc.2.1, hb]
        exact ⟨rfl, rfl, rfl⟩

/-- Witness for `serverLoadTLSConfig_client_auth`: both clauses, at
`srvCA` (client-CA file set) and at the empty server setting. -/
theorem serverLoadTLSConfig_client_auth_witness :
    (∃ pool, TLSServerSetting.loadClientCAFile testEnv srvCA = .ok pool ∧
      srvCACfg.ClientAuth = ClientAuthType.RequireAndVerifyClientCert ∧
      srvCACfg.ClientCAs = some pool) ∧
    (({ MinVersion := 771 } : TLSConfig).ClientAuth =
        ClientAuthType.NoClientCert ∧
      ({ MinVersion := 771 } : TLSConfig).ClientCAs = none ∧
      ({ MinVersion := 771 } : TLSConfig).GetConfigForClient = none) := by
  have h := serverLoadTLSConfig_client_auth testEnv 0 srvCA
  have h0 := serverLoadTLSConfig_client_auth testEnv 0 {}
  exact ⟨h.1 (by decide) srvCACfg ["ca.pem"] false (by decide),
    h0.2 rfl { MinVersion := 771 } [] false (by decide)⟩

/-- C10: with `client_ca_file` set and `client_ca_file_reload` false,
the server builder leaves `GetConfigForClient` unset and starts no
watch task; the client-CA pool in the returned config is the pool
loaded at build time. -/
theorem serverLoadTLSConfig_static_client_ca (env : Env) (now : Int)
    (c : TLSServerSetting) (cfg : TLSConfig) (reads : List String) (w : Bool)
    (hca : c.ClientCAFile ≠ "")
    (hflag : c.ReloadClientCAFile = false)
    (h : TLSServerSetting.LoadTLSConfig env now c = (.ok cfg, reads, w)) :
    cfg.GetConfigForClient = none ∧ w = false ∧
    ∃ pool, TLSServerSetting.loadClientCAFile env c = .ok pool ∧
      cfg.ClientCAs = some pool := by
  obtain ⟨base, reads0, hbase, hcase⟩ :=
    serverLoadTLSConfig_ok_inv env now c cfg reads w h
  cases hcase with
  | inl hc => exact absurd hc.1 hca
  | inr hc =>
      obtain ⟨rl, hrl, hpool, hauth, hroot, hgc, hgcc, hmin, hmax, hnf, hf⟩ :=
        hc.2
      obtain ⟨hgcfc, hw⟩ := hnf hflag
      obtain ⟨minT, maxT, rl0, cp0, _, _, hb⟩ :=
        loadTLSConfig_ok_inv env now c.toTLSSetting base reads0 hbase
      have hnone : base.GetConfigForClient = none := by rw [hb]
      obtain ⟨hload, _, _⟩ :=
        newClientCAsReloader_ok_inv env c.ClientCAFile c rl hrl
      exact ⟨by rw [hgcfc, hnone], hw, rl.certPool, hload, hpool⟩

/-- Witness for `serverLoadTLSConfig_static_client_ca` at `srvCA`. -/
theorem serverLoadTLSConfig_static_client_ca_witness :
    srvCACfg.GetConfigForClient = none ∧ (false : Bool) = false ∧
    ∃ pool, TLSServerSetting.loadClientCAFile testEnv srvCA = .ok pool ∧
      srvCACfg.ClientCAs = some pool :=
  serverLoadTLSConfig_static_client_ca testEnv 0 srvCA srvCACfg ["ca.pem"]
    false (by decide) rfl (by decide)

theorem exists_index_of_mem {α : Type} {l : List α} {a : α} (h : a ∈ l) :
    ∃ i, l.get? i = some a := by
  obtain ⟨n, hn⟩ := List.mem_iff_get.mp h
  exact ⟨n.1, by rw [List.get?_eq_get n.2, hn]⟩

theorem writerHeld_elim {ts : List RThread} (h : writerHeld ts = true) :
    ∃ t ∈ ts, t.phase = RPhase.writeLocked := by
  obtain ⟨t, mem, hp⟩ := List.any_eq_true.mp h
  refine ⟨t, mem, ?_⟩
  cases ht : t.phase with
  | writeLocked => rfl
  | start => rw [ht] at hp; exact Bool.noConfusion hp
  | readLocked => rw [ht] at hp; exact Bool.noConfusion hp
  | upgrading => rw [ht] at hp; exact Bool.noConfusion hp
  | done res => rw [ht] at hp; exact Bool.noConfusion hp

theorem readerHeld_elim {ts : List RThread} (h : readerHeld ts = true) :
    ∃ t ∈ ts, t.phase = RPhase.readLocked := by
  obtain ⟨t, mem, hp⟩ := List.any_eq_true.mp h
  refine ⟨t, mem, ?_⟩
  cases ht : t.phase with
  | readLocked => rfl
  | start => rw [ht] at hp; exact Bool.noConfusion hp
  | writeLocked => rw [ht] at hp; exact Bool.noConfusion hp
  | upgrading => rw [ht] at hp; exact Bool.noConfusion hp
  | done res => rw [ht] at hp; exact Bool.noConfusion hp

theorem readerHeld_false_elim {ts : List RThread} (h : readerHeld ts = false)
    {t : RThread} (mem : t ∈ ts) (hp : t.phase = RPhase.readLocked) : False := by
  have h2 := List.any_eq_false.mp h t mem
  rw [hp] at h2
  exact h2 rfl

theorem writerHeld_false_elim {ts : List RThread} (h : writerHeld ts = false)
    {t : RThread} (mem : t ∈ ts) (hp : t.phase = RPhase.writeLocked) : False := by
  have h2 := List.any_eq_false.mp h t mem
  rw [hp] at h2
  exact h2 rfl

/-- Progress: while some caller has not returned, some step is
enabled — the lock protocol of `GetCertificate` never reaches a
deadlocked configuration. -/
theorem rstep_progress (cfg : RConfig)
    (h : ∃ t ∈ cfg.threads, t.phase.isDone = false) :
    ∃ cfg2, RStep cfg cfg2 := by
  cases hw : writerHeld cfg.threads with
  | true =>
      obtain ⟨t, mem, hp⟩ := writerHeld_elim hw
      obtain ⟨i, hget⟩ := exists_index_of_mem mem
      cases hload : t.env.loadX509KeyPair cfg.rel.CertFile cfg.rel.KeyFile with
      | error e => exact ⟨_, RStep.wfail cfg i t e hget hp hload⟩
      | ok c => exact ⟨_, RStep.wok cfg i t c hget hp hload⟩
  | false =>
      cases hr : readerHeld cfg.threads with
      | true =>
          obtain ⟨t, mem, hp⟩ := readerHeld_elim hr
          obtain ⟨i, hget⟩ := exists_index_of_mem mem
          by_cases hdue : cfg.rel.ReloadInterval ≠ 0 ∧ cfg.rel.nextReload < cfg.now
          · exact ⟨_, RStep.readMiss cfg i t hget hp hdue⟩
          · exact ⟨_, RStep.readHit cfg i t hget hp hdue⟩
      | false =>
          obtain ⟨t, mem, hnd⟩ := h
          obtain ⟨i, hget⟩ := exists_index_of_mem mem
          cases hp : t.phase with
          | start => exact ⟨_, RStep.rlock cfg i t hget hp hw⟩
          | upgrading => exact ⟨_, RStep.wlock cfg i t hget hp hw hr⟩
          | readLocked => exact absurd (readerHeld_false_elim hr mem hp) id
          | writeLocked => exact absurd (writerHeld_false_elim hw mem hp) id
          | done res => rw [hp] at hnd; exact Bool.noConfusion hnd

/-- Frame: a step either leaves the shared reloader record untouched,
or is a successful write step that atomically installs the writer's
fully loaded certificate and the new next-reload timestamp. -/
theorem rstep_rel_frame (cfg cfg2 : RConfig) (h : RStep cfg cfg2) :
    cfg2.rel = cfg.rel ∨
    (∃ i t c, cfg.threads.get? i = some t ∧
      t.env.loadX509KeyPair cfg.rel.CertFile cfg.rel.KeyFile = .ok c ∧
      cfg2.rel = { cfg.rel with
                     cert := some c
                     nextReload := cfg.now + cfg.rel.ReloadInterval }) := by
  cases h with
  | rlock i t hget hp hw => exact Or.inl rfl
  | readHit i t hget hp hdue => exact Or.inl rfl
  | readMiss i t hget hp hdue => exact Or.inl rfl
  | wlock i t hget hp hw hr => exact Or.inl rfl
  | wfail i t e hget hp hload => exact Or.inl rfl
  | wok i t c hget hp hload => exact Or.inr ⟨i, t, c, hget, hload, rfl⟩

theorem get_setPhase_ne {ts : List RThread} {i j : Nat} (t : RThread)
    (p : RPhase) (hij : j ≠ i) :
    (setPhase ts j t p).get? i = ts.get? i := by
  unfold setPhase
  exact List.get?_set_ne _ _ hij

theorem get_setPhase_eq {ts : List RThread} {j : Nat} {t0 : RThread}
    (t : RThread) (p : RPhase) (h : ts.get? j = some t0) :
    (setPhase ts j t p).get? j = some { t with phase := p } := by
  unfold setPhase
  rw [List.get?_set_eq, h]
  rfl

/-- Every result a caller can return in one step is either the cache
value read whole under the lock, an error, or a certificate the caller
itself fully loaded — no torn value. -/
theorem rstep_result_valid (cfg cfg2 : RConfig) (i : Nat) (t t2 : RThread)
    (res : Except String (Option TLSCertificate)) (h : RStep cfg cfg2)
    (hget : cfg.threads.get? i = some t)
    (hget2 : cfg2.threads.get? i = some t2)
    (hdone : t2.phase = RPhase.done res)
    (hnd : t.phase.isDone = false) :
    res = .ok cfg.rel.cert ∨ (∃ e, res = .error e) ∨
    (∃ c, t.env.loadX509KeyPair cfg.rel.CertFile cfg.rel.KeyFile = .ok c ∧
      res = .ok (some c)) := by
  cases h with
  | rlock j tj hgetj hp hw =>
      by_cases hij : j = i
      · subst hij
        rw [get_setPhase_eq tj RPhase.readLocked hgetj] at hget2
        have ht2 := Option.some.inj hget2
        rw [← ht2] at hdone
        exact RPhase.noConfusion hdone
      · rw [get_setPhase_ne tj RPhase.readLocked hij] at hget2
        rw [hget] at hget2
        have ht2 := Option.some.inj hget2
        rw [← ht2] at hdone
        rw [hdone] at hnd
        exact Bool.noConfusion hnd
  | readMiss j tj hgetj hp hdue =>
      by_cases hij : j = i
      · subst hij
        rw [get_setPhase_eq tj RPhase.upgrading hgetj] at hget2
        have ht2 := Option.some.inj hget2
        rw [← ht2] at hdone
        exact RPhase.noConfusion hdone
      · rw [get_setPhase_ne tj RPhase.upgrading hij] at hget2
        rw [hget] at hget2
        have ht2 := Option.some.inj hget2
        rw [← ht2] at hdone
        rw [hdone] at hnd
        exact Bool.noConfusion hnd
  | wlock j tj hgetj hp hw hr =>
      by_cases hij : j = i
      · subst hij
        rw [get_setPhase_eq tj RPhase.writeLocked hgetj] at hget2
        have ht2 := Option.some.inj hget2
        rw [← ht2] at hdone
        exact RPhase.noConfusion hdone
      · rw [get_setPhase_ne tj RPhase.writeLocked hij] at hget2
        rw [hget] at hget2
        have ht2 := Option.some.inj hget2
        rw [← ht2] at hdone
        rw [hdone] at hnd
        exact Bool.noConfusion hnd
  | readHit j tj hgetj hp hdue =>
      by_cases hij : j = i
      · subst hij
        rw [get_setPhase_eq tj (RPhase.done (.ok cfg.rel.cert)) hgetj] at hget2
        have ht2 := Option.some.inj hget2
        rw [← ht2] at hdone
        exact Or.inl (RPhase.done.inj hdone).symm
      · rw [get_setPhase_ne tj (RPhase.done (.ok cfg.rel.cert))
          hij] at hget2
        rw [hget] at hget2
        have ht2 := Option.some.inj hget2
        rw [← ht2] at hdone
        rw [hdone] at hnd
        exact Bool.noConfusion hnd
  | wfail j tj e hgetj hp hload =>
      by_cases hij : j = i
      · subst hij
        rw [get_setPhase_eq tj
          (RPhase.done (.error ("failed to load TLS cert and key: " ++ e)))
          hgetj] at hget2
        have ht2 := Option.some.inj hget2
        rw [← ht2] at hdone
        exact Or.inr (Or.inl ⟨_, (RPhase.done.inj hdone).symm⟩)
      · rw [get_setPhase_ne tj
          (RPhase.done (.error ("failed to load TLS cert and key: " ++ e)))
          hij] at hget2
        rw [hget] at hget2
        have ht2 := Option.some.inj hget2
        rw [← ht2] at hdone
        rw [hdone] at hnd
        exact Bool.noConfusion hnd
  | wok j tj c hgetj hp hload =>
      by_cases hij : j = i
      · subst hij
        rw [get_setPhase_eq tj (RPhase.done (.ok (some c))) hgetj] at hget2
        have ht2 := Option.some.inj hget2
        rw [← ht2] at hdone
        have htj := Option.some.inj (hget ▸ hgetj)
        refine Or.inr (Or.inr ⟨c, ?_, (RPhase.done.inj hdone).symm⟩)
        rw [htj]
        exact hload
      · rw [get_setPhase_ne tj (RPhase.done (.ok (some c)))
          hij] at hget2
        rw [hget] at hget2
        have ht2 := Option.some.inj hget2
        rw [← ht2] at hdone
        rw [hdone] at hnd
        exact Bool.noConfusion hnd

/-- C8: in the interleaving model of concurrent `GetCertificate`
calls, (progress) while some caller is unfinished a step is always
enabled — no deadlock; (frame) the shared cache only changes when a
successful writer atomically installs its own fully loaded value, the
last such writer determining the final cache state; (results) a caller
finishing in a step returns the wholly written cache value, an error,
or its own fully loaded certificate — never a partial value. -/
theorem getCertificate_concurrent_safety (cfg : RConfig) :
    ((∃ t ∈ cfg.threads, t.phase.isDone = false) → ∃ cfg2, RStep cfg cfg2) ∧
    (∀ cfg2, RStep cfg cfg2 →
      cfg2.rel = cfg.rel ∨
      (∃ i t c, cfg.threads.get? i = some t ∧
        t.env.loadX509KeyPair cfg.rel.CertFile cfg.rel.KeyFile = .ok c ∧
        cfg2.rel = { cfg.rel with
                       cert := some c
                       nextReload := cfg.now + cfg.rel.ReloadInterval })) ∧
    (∀ cfg2 i t t2 res, RStep cfg cfg2 →
      cfg.threads.get? i = some t →
      cfg2.threads.get? i = some t2 →
      t2.phase = RPhase.done res →
      t.phase.isDone = false →
      res = .ok cfg.rel.cert ∨ (∃ e, res = .error e) ∨
      (∃ c, t.env.loadX509KeyPair cfg.rel.CertFile cfg.rel.KeyFile = .ok c ∧
        res = .ok (some c))) :=
  ⟨rstep_progress cfg,
   fun cfg2 h => rstep_rel_frame cfg cfg2 h,
   fun cfg2 i t t2 res h hget hget2 hdone hnd =>
     rstep_result_valid cfg cfg2 i t t2 res h hget hget2 hdone hnd⟩

/-- A one-caller configuration with a reload due. -/
def thread0 : RThread := { env := testEnv, phase := .start }

/-- See `thread0`. -/
def testRConfig : RConfig :=
  { rel := rBoundary, now := 10, threads := [thread0] }

/-- Witness for `getCertificate_concurrent_safety`: the progress
clause applied at a concrete one-caller configuration. -/
theorem getCertificate_concurrent_safety_witness :
    ∃ cfg2, RStep testRConfig cfg2 :=
  (getCertificate_concurrent_safety testRConfig).1
    ⟨thread0, List.mem_cons_self thread0 [], rfl⟩

end Configtls
